import Mathlib

/-
Verification of the promql-benchmark tool (src/main.go) against its
specification.  The Go code is shallowly embedded: pure computations become
Lean functions, the worker-pool dispatcher becomes an explicit transition
system, and a Go runtime panic (nil-pointer dereference, index out of range)
is modelled by the `none` / `panicked` outcome of the embedded function.
Machine integers (int64) are modelled as Int with explicit wrap-around where
the source subtracts; float64 arithmetic on millisecond integers is modelled
as exact rational arithmetic.
-/

namespace PromBench

/-- Wrap-around of 64-bit signed integer arithmetic, as performed by the Go
int64 operations in main.go. -/
def wrap64 (x : Int) : Int := (x + 2 ^ 63) % 2 ^ 64 - 2 ^ 63

/-- math.MaxInt64, the initial value of `fastest` in getQueriesStats
(src/main.go line 190). -/
def maxInt64 : Int := 2 ^ 63 - 1

/-- Query mirrors the Go struct Query (src/main.go lines 135-142): one row of
the input CSV file. -/
structure Query where
  query : String
  start : Int
  «end» : Int
  step : Int
deriving DecidableEq

/-- The per-query elapsed time computed by getQueriesStats
(src/main.go line 194): the int64 difference End - Start. -/
def elapsed (q : Query) : Int := wrap64 (q.«end» - q.start)

/-- Stats mirrors the Go struct Stats (src/main.go lines 107-122).  Errors is
a list of error messages; Average and Median are the float64 fields, modelled
as rationals. -/
structure Stats where
  average : ℚ
  errors : List String
  fastest : Int
  median : ℚ
  processed : Nat
  slowest : Int
  total : Int
deriving DecidableEq

/-- The running minimum of getQueriesStats (src/main.go lines 190, 195-197):
`fastest` starts at math.MaxInt64 and is lowered by every smaller time
difference. -/
def foldFastest (timeDiffs : List Int) : Int :=
  timeDiffs.foldl (fun f d => if d < f then d else f) maxInt64

/-- The running maximum of getQueriesStats (src/main.go lines 188, 198-200):
`slowest` starts at the int64 zero value and is raised by every larger time
difference. -/
def foldSlowest (timeDiffs : List Int) : Int :=
  timeDiffs.foldl (fun s d => if d > s then d else s) 0

/-- The sort of getQueriesStats (src/main.go line 206): sort.Slice with the
comparison timeDiffs[i] < timeDiffs[j], which produces the nondecreasing
rearrangement of the slice. -/
def sortDiffs (timeDiffs : List Int) : List Int :=
  List.insertionSort (fun a b => a ≤ b) timeDiffs

/-- The average of getQueriesStats (src/main.go lines 201, 215): the float64
running sum of the time differences divided by len(queryList); the float64
arithmetic on these integers is modelled as exact rational arithmetic. -/
def avgOf (timeDiffs : List Int) : ℚ :=
  ((timeDiffs.sum : ℤ) : ℚ) / (timeDiffs.length : ℚ)

/-- The statistics computation of getQueriesStats (src/main.go lines 187-223)
as a function of the list of per-query time differences.  mNumber is
len(timeDiffs)/2 (line 207).  In the even branch (line 211) the two middle
elements are added as int64, a wrapping addition, before the conversion to
float64 and the halving.  When the list is empty the even-median branch
indexes timeDiffs[-1] (line 211), an index-out-of-range runtime panic,
modelled here by `none`. -/
def statsOfDiffs (timeDiffs : List Int) : Option Stats :=
  if (sortDiffs timeDiffs).length % 2 ≠ 0 then
    some { average := avgOf timeDiffs, errors := [],
           fastest := foldFastest timeDiffs,
           median := (((sortDiffs timeDiffs).getD ((sortDiffs timeDiffs).length / 2) 0 : ℤ) : ℚ),
           processed := 0, slowest := foldSlowest timeDiffs, total := 0 }
  else if (sortDiffs timeDiffs).length = 0 then
    none
  else
    some { average := avgOf timeDiffs, errors := [],
           fastest := foldFastest timeDiffs,
           median := ((wrap64 ((sortDiffs timeDiffs).getD ((sortDiffs timeDiffs).length / 2 - 1) 0
                        + (sortDiffs timeDiffs).getD ((sortDiffs timeDiffs).length / 2) 0) : ℤ) : ℚ) / 2,
           processed := 0, slowest := foldSlowest timeDiffs, total := 0 }

/-- getQueriesStats (src/main.go lines 187-223): computes the per-query
elapsed times End - Start and aggregates them.  `none` models the Go runtime
panic on an empty query list (index out of range in the even-median branch). -/
def getQueriesStats (queryList : List Query) : Option Stats :=
  statsOfDiffs (queryList.map elapsed)

example : elapsed { query := "", start := 0, «end» := 2, step := 0 } = 2 := by decide

example :
    getQueriesStats
      [ { query := "", start := 0, «end» := 1, step := 0 },
        { query := "", start := 0, «end» := 2, step := 0 },
        { query := "", start := 0, «end» := 3, step := 0 } ] =
    some { average := 2, errors := [], fastest := 1, median := 2,
           processed := 0, slowest := 3, total := 0 } := by
  norm_num [getQueriesStats, statsOfDiffs, elapsed, wrap64, maxInt64,
    sortDiffs, avgOf, foldFastest, foldSlowest,
    List.insertionSort, List.orderedInsert, Stats.mk.injEq]

example :
    getQueriesStats
      [ { query := "", start := 0, «end» := 1, step := 0 },
        { query := "", start := 0, «end» := 2, step := 0 },
        { query := "", start := 0, «end» := 3, step := 0 },
        { query := "", start := 0, «end» := 4, step := 0 } ] =
    some { average := 5 / 2, errors := [], fastest := 1, median := 5 / 2,
           processed := 0, slowest := 4, total := 0 } := by
  norm_num [getQueriesStats, statsOfDiffs, elapsed, wrap64, maxInt64,
    sortDiffs, avgOf, foldFastest, foldSlowest,
    List.insertionSort, List.orderedInsert, Stats.mk.injEq]

example : getQueriesStats [] = none := by decide

/-- The outcome of the single outbound HTTP GET performed by
Client.getHTTPQuery (src/main.go line 79): either a transport-level error or
a response carrying a status code, together with the wall-clock start and end
of the call in unix milliseconds (lines 78-80). -/
inductive CallResult where
  | ok (status : Nat) (tsStart tsEnd : Int)
  | err (msg : String)
deriving DecidableEq

/-- The result classification of Client.getHTTPQuery (src/main.go lines
82-89): a transport error yields an error, a status other than 200 yields an
error, otherwise the response with its timestamps is returned. -/
def getHTTPQueryResult (r : CallResult) : Except String (Nat × Int × Int) :=
  match r with
  | .err m => .error ("getHTTPQuery() sending request to server. error=" ++ m)
  | .ok status ts te =>
    if status ≠ 200 then
      .error ("getHTTPQuery() unexpected response status code: " ++ toString status)
    else
      .ok (status, ts, te)

/-- Accumulator state of one worker goroutine body in benchmark
(src/main.go lines 235-256): the shared errorList, the shared queryList, and
whether the goroutine panicked. -/
structure WorkerAcc where
  errorList : List String
  queryList : List Query
  panicked : Bool
deriving DecidableEq

/-- The body of one worker goroutine in benchmark (src/main.go lines
243-255).  On an error from getHTTPQuery the code appends the cause to
errorList and then unconditionally evaluates resp.StatusCode with resp = nil:
a nil-pointer dereference, a runtime panic that crashes the process, modelled
by `panicked := true`.  On success the query's Start and End fields are
overwritten with the measured timestamps and the query appended to
queryList. -/
def workerBody (q : Query) (r : CallResult) (acc : WorkerAcc) : WorkerAcc :=
  match getHTTPQueryResult r with
  | .error e =>
    { errorList := acc.errorList ++ ["query=" ++ q.query ++ ", error=" ++ e],
      queryList := acc.queryList, panicked := true }
  | .ok (_, ts, te) =>
    { errorList := acc.errorList,
      queryList := acc.queryList ++ [{ q with start := ts, «end» := te }],
      panicked := acc.panicked }

/-- benchmark (src/main.go lines 225-269), given the outcome of each query's
HTTP call and the measured batch duration.  The concurrent appends are
modelled as a sequential fold (the spec itself notes the unsynchronised
appends are a data race; the values appended are as in the source).  If any
worker goroutine panicked (nil response dereference) the process crashes and
no Stats value is ever returned, modelled by `none`; the same holds if
getQueriesStats panics.  Otherwise Processed = len(queries) - len(errorList)
(line 264), Total is the wall-clock duration (line 265) and Errors is the
error list (line 266). -/
def benchmark (pairs : List (Query × CallResult)) (totalMs : Int) : Option Stats :=
  let final := pairs.foldl (fun acc p => workerBody p.1 p.2 acc)
    { errorList := [], queryList := [], panicked := false }
  if final.panicked then
    none
  else
    (getQueriesStats final.queryList).map fun s =>
      { s with processed := pairs.length - final.errorList.length,
               total := totalMs, errors := final.errorList }

/-- Phase of one unit of work in the dispatcher (src/main.go lines 234-257):
`pending` before the send on the buffered `workers` channel (line 236),
`running` while the permit is held and the getHTTPQuery call may be in
flight (lines 236-255), `done` after the deferred receive released the
permit (line 239). -/
inductive Phase where
  | pending
  | running
  | done
deriving DecidableEq

/-- Whether a unit of work currently holds a permit (is in flight). -/
def Phase.isRunning : Phase → Bool
  | .running => true
  | _ => false

/-- Number of Query Executor calls currently in flight: the number of
goroutines that hold a slot of the buffered `workers` channel. -/
def inflight (ps : List Phase) : Nat := ps.countP Phase.isRunning

/-- One scheduling step of the dispatcher of benchmark (src/main.go lines
229-241).  `acquire i` models the send `workers <- struct` at line 236: it
succeeds only when the buffered channel, of capacity cap, holds fewer than
cap items, that is, when fewer than cap units are in flight.  `release i`
models the deferred receive `<-workers` at line 239, run unconditionally on
every exit path of the goroutine body. -/
inductive DStep (cap : Nat) : List Phase → List Phase → Prop where
  | acquire (i : Nat) (ps : List Phase) :
      ps.getD i .done = .pending → inflight ps < cap →
      DStep cap ps (ps.set i .running)
  | release (i : Nat) (ps : List Phase) :
      ps.getD i .done = .running →
      DStep cap ps (ps.set i .done)

/-- Reachability of dispatcher states from the initial state in which every
unit of work is pending. -/
inductive DReach (cap : Nat) : List Phase → Prop where
  | init (n : Nat) : DReach cap (List.replicate n .pending)
  | step {ps ps' : List Phase} : DReach cap ps → DStep cap ps ps' → DReach cap ps'

/-- Config mirrors the Go struct Config (src/main.go lines 271-275). -/
structure Config where
  filepath : String
  workers : Int
  url : String
deriving DecidableEq

/-- The validation performed by parseFlags (src/main.go lines 277-305) on the
parsed flag values: the only check is that the filepath flag is non-empty
(lines 297-302); the workers and url values are passed through unchecked. -/
def parseFlags (filepath : String) (workers : Int) (url : String) : Except String Config :=
  if filepath = "" then
    .error "required input file"
  else
    .ok { filepath := filepath, workers := workers, url := url }

/-- Decimal digit value of a character, used to model strconv integer
parsing. -/
def digitVal (c : Char) : Option Nat :=
  if ('0' ≤ c ∧ c ≤ '9') then some (c.toNat - '0'.toNat) else none

/-- Accumulating parse of a decimal digit string. -/
def parseDigits : List Char → Nat → Option Nat
  | [], acc => some acc
  | c :: cs, acc =>
    match digitVal c with
    | none => none
    | some d => parseDigits cs (acc * 10 + d)

/-- strconv.ParseInt(s, 10, 64) as used by readFile (src/main.go lines 160,
165), and strconv.Atoi (line 170) on a 64-bit platform: an optional sign
followed by at least one decimal digit, the value required to fit in int64;
anything else is a parse error, modelled by `none`. -/
def parseInt64 (s : String) : Option Int :=
  let signDigits : Int × List Char :=
    match s.data with
    | '-' :: rest => (-1, rest)
    | '+' :: rest => (1, rest)
    | l => (1, l)
  match signDigits.2 with
  | [] => none
  | ds =>
    (parseDigits ds 0).bind fun n =>
      let v : Int := signDigits.1 * (n : Int)
      if -(2 ^ 63) ≤ v ∧ v < 2 ^ 63 then some v else none

/-- One record of the input CSV file as delivered by the csv reader to the
loop of readFile (src/main.go line 159): the four fields
query, start, end, step indexed as line[0] .. line[3]. -/
structure CsvRecord where
  f0 : String
  f1 : String
  f2 : String
  f3 : String
deriving DecidableEq

/-- The per-record parsing loop of readFile (src/main.go lines 158-183):
the first numeric field that fails to parse makes readFile return a nil
query list and the error; otherwise every record becomes a Query. -/
def readFile : List CsvRecord → Except String (List Query)
  | [] => .ok []
  | r :: rs =>
    match parseInt64 r.f1 with
    | none => .error ("invalid integer " ++ r.f1)
    | some start =>
      match parseInt64 r.f2 with
      | none => .error ("invalid integer " ++ r.f2)
      | some «end» =>
        match parseInt64 r.f3 with
        | none => .error ("invalid integer " ++ r.f3)
        | some step =>
          match readFile rs with
          | .error e => .error e
          | .ok qs =>
            .ok ({ query := r.f0, start := start, «end» := «end», step := step } :: qs)

/-- The query list with which main (src/main.go lines 330-335) invokes
benchmark: when readFile returns an error, main merely logs it (line 332,
log.Print with no exit) and proceeds, so benchmark receives the nil slice
returned alongside the error. -/
def mainQueryList (records : List CsvRecord) : List Query :=
  match readFile records with
  | .ok qs => qs
  | .error _ => []

/-- A url.URL value as used by the Client (src/main.go lines 34-38, 61):
only the fields the code touches. -/
structure GoURL where
  scheme : String
  host : String
  path : String
  rawQuery : String
deriving DecidableEq

/-- The Client state relevant to URL construction (src/main.go lines
34-38). -/
structure ClientModel where
  url : GoURL
  version : String
deriving DecidableEq

/-- getScheme (src/main.go lines 40-47): the anchored regular expression
matches exactly the prefixes http://, https:// and ftp:// and returns the
matched prefix, or nil when the string starts with none of them. -/
def getScheme (text : String) : Option String :=
  if ("https://".data.isPrefixOf text.data) then some "https://"
  else if ("http://".data.isPrefixOf text.data) then some "http://"
  else if ("ftp://".data.isPrefixOf text.data) then some "ftp://"
  else none

/-- strings.TrimLeft (src/main.go line 54): removes every leading character
that belongs to the cutset, not the prefix as a unit. -/
def trimLeftCutset (s cutset : String) : String :=
  ⟨s.data.dropWhile (fun c => decide (c ∈ cutset.data))⟩

/-- strings.TrimRight (src/main.go line 55): removes every trailing
character that belongs to the cutset. -/
def trimRightCutset (s cutset : String) : String :=
  ⟨(s.data.reverse.dropWhile (fun c => decide (c ∈ cutset.data))).reverse⟩

/-- newHTTPClient (src/main.go lines 51-64): the scheme defaults to https;
when getScheme finds a prefix, the host is TrimLeft-ed by the prefix used as
a cutset and the scheme is the prefix TrimRight-ed by the cutset "://".
The URL starts with empty Path and RawQuery (zero values). -/
def newHTTPClient (host : String) : ClientModel :=
  let schemeHost : String × String :=
    match getScheme host with
    | some s => (trimRightCutset s "://", trimLeftCutset host s)
    | none => ("https", host)
  { url := { scheme := schemeHost.1, host := schemeHost.2,
             path := "", rawQuery := "" },
    version := "v1" }

/-- The URL mutation performed by Client.getHTTPQuery (src/main.go lines
69-76) on the shared Client: Path is overwritten with
/api/version/query_range and RawQuery with the encoding of the parameters
end, query, start, step (url.Values.Encode emits the keys in sorted order).
`fmtTime` abstracts the RFC3339 formatting of a millisecond timestamp in the
local time zone (lines 73-74) and `escape` abstracts the percent-encoding
applied by Encode; the mutation happens for every choice of these library
functions. -/
def getHTTPQueryURL (fmtTime : Int → String) (escape : String → String)
    (c : ClientModel) (q : Query) : GoURL :=
  { c.url with
    path := "/api/" ++ c.version ++ "/query_range",
    rawQuery :=
      "end=" ++ escape (fmtTime q.«end») ++
      "&query=" ++ escape q.query ++
      "&start=" ++ escape (fmtTime q.start) ++
      "&step=" ++ escape (toString q.step) }

/-- The outbound requests issued by one invocation of Client.getHTTPQuery:
exactly the single GET of src/main.go line 79, against the mutated URL. -/
def getHTTPQueryRequests (fmtTime : Int → String) (escape : String → String)
    (c : ClientModel) (q : Query) : List GoURL :=
  [getHTTPQueryURL fmtTime escape c q]

/-- A concrete query list of four queries whose elapsed times are all 2^62
milliseconds: in-range int64 values whose two middle sorted elements sum past
the int64 maximum, so the addition at src/main.go line 211 wraps. -/
def qBig4 : List Query :=
  [ { query := "", start := 0, «end» := 2 ^ 62, step := 0 },
    { query := "", start := 0, «end» := 2 ^ 62, step := 0 },
    { query := "", start := 0, «end» := 2 ^ 62, step := 0 },
    { query := "", start := 0, «end» := 2 ^ 62, step := 0 } ]

/-- A concrete query list whose elapsed times are 1, 2 and 3 milliseconds,
as in the repository test Test_getQueriesStats (src/unnamed/part_000 lines
28-35). -/
def exQueries3 : List Query :=
  [ { query := "", start := 0, «end» := 1, step := 0 },
    { query := "", start := 0, «end» := 2, step := 0 },
    { query := "", start := 0, «end» := 3, step := 0 } ]

/-- A concrete query list whose elapsed times are 1, 2, 3 and 4 milliseconds,
as in the repository test Test_getQueriesStats (src/unnamed/part_000 lines
36-45). -/
def exQueries4 : List Query :=
  [ { query := "", start := 0, «end» := 1, step := 0 },
    { query := "", start := 0, «end» := 2, step := 0 },
    { query := "", start := 0, «end» := 3, step := 0 },
    { query := "", start := 0, «end» := 4, step := 0 } ]

example : parseInt64 "1597056698698" = some 1597056698698 := by decide
example : parseInt64 "x" = none := by decide
example : getScheme "https://example.xyz" = some "https://" := by decide
example : getScheme "://example.xyz" = none := by decide
example : (newHTTPClient "http://host.xyz").url.host = "ost.xyz" := by decide
example : (newHTTPClient "http://localhost:9201").url.scheme = "http" := by decide

theorem foldFastest_le_init (timeDiffs : List Int) :
    ∀ init : Int, timeDiffs.foldl (fun f d => if d < f then d else f) init ≤ init := by
  induction timeDiffs with
  | nil => intro init; simp
  | cons a l ih =>
    intro init
    simp only [List.foldl_cons]
    refine le_trans (ih _) ?_
    split <;> omega

theorem foldFastest_le (timeDiffs : List Int) {x : Int} (hx : x ∈ timeDiffs) :
    ∀ init : Int, timeDiffs.foldl (fun f d => if d < f then d else f) init ≤ x := by
  induction timeDiffs with
  | nil => cases hx
  | cons a l ih =>
    intro init
    simp only [List.foldl_cons]
    rcases List.mem_cons.mp hx with h | h
    · subst h
      refine le_trans (foldFastest_le_init l _) ?_
      split <;> omega
    · exact ih h _

theorem le_foldSlowest_init (timeDiffs : List Int) :
    ∀ init : Int, init ≤ timeDiffs.foldl (fun s d => if d > s then d else s) init := by
  induction timeDiffs with
  | nil => intro init; simp
  | cons a l ih =>
    intro init
    simp only [List.foldl_cons]
    refine le_trans ?_ (ih _)
    split <;> omega

theorem le_foldSlowest (timeDiffs : List Int) {x : Int} (hx : x ∈ timeDiffs) :
    ∀ init : Int, x ≤ timeDiffs.foldl (fun s d => if d > s then d else s) init := by
  induction timeDiffs with
  | nil => cases hx
  | cons a l ih =>
    intro init
    simp only [List.foldl_cons]
    rcases List.mem_cons.mp hx with h | h
    · subst h
      refine le_trans ?_ (le_foldSlowest_init l _)
      split <;> omega
    · exact ih h _

theorem mul_length_le_sum {c : Int} {l : List Int} (h : ∀ x ∈ l, c ≤ x) :
    c * (l.length : Int) ≤ l.sum := by
  induction l with
  | nil => simp
  | cons a t ih =>
    have ha : c ≤ a := h a (List.mem_cons_self a t)
    have ht := ih fun x hx => h x (List.mem_cons_of_mem a hx)
    simp only [List.sum_cons, List.length_cons]
    push_cast
    nlinarith

theorem sum_le_mul_length {c : Int} {l : List Int} (h : ∀ x ∈ l, x ≤ c) :
    l.sum ≤ c * (l.length : Int) := by
  induction l with
  | nil => simp
  | cons a t ih =>
    have ha : a ≤ c := h a (List.mem_cons_self a t)
    have ht := ih fun x hx => h x (List.mem_cons_of_mem a hx)
    simp only [List.sum_cons, List.length_cons]
    push_cast
    nlinarith

theorem getD_mem_of_lt {l : List Int} {n : Nat} (h : n < l.length) (d : Int) :
    l.getD n d ∈ l := by
  rw [List.getD_eq_getElem l d h]
  exact List.getElem_mem h

theorem sortDiffs_perm (timeDiffs : List Int) : List.Perm (sortDiffs timeDiffs) timeDiffs :=
  List.perm_insertionSort _ _

theorem sortDiffs_sorted (timeDiffs : List Int) :
    (sortDiffs timeDiffs).Sorted (fun a b => a ≤ b) :=
  List.sorted_insertionSort _ _

theorem sortDiffs_length (timeDiffs : List Int) :
    (sortDiffs timeDiffs).length = timeDiffs.length :=
  (sortDiffs_perm timeDiffs).length_eq

theorem statsOfDiffs_odd (timeDiffs : List Int) (h : timeDiffs.length % 2 = 1) :
    statsOfDiffs timeDiffs =
      some { average := avgOf timeDiffs, errors := [],
             fastest := foldFastest timeDiffs,
             median := (((sortDiffs timeDiffs).getD (timeDiffs.length / 2) 0 : ℤ) : ℚ),
             processed := 0, slowest := foldSlowest timeDiffs, total := 0 } := by
  unfold statsOfDiffs
  rw [if_pos (by rw [sortDiffs_length]; omega)]
  rw [sortDiffs_length]

theorem statsOfDiffs_even (timeDiffs : List Int) (hne : timeDiffs ≠ [])
    (h : timeDiffs.length % 2 = 0) :
    statsOfDiffs timeDiffs =
      some { average := avgOf timeDiffs, errors := [],
             fastest := foldFastest timeDiffs,
             median := ((wrap64 ((sortDiffs timeDiffs).getD (timeDiffs.length / 2 - 1) 0
                          + (sortDiffs timeDiffs).getD (timeDiffs.length / 2) 0) : ℤ) : ℚ) / 2,
             processed := 0, slowest := foldSlowest timeDiffs, total := 0 } := by
  have hlen0 : timeDiffs.length ≠ 0 := by
    simpa [List.length_eq_zero] using hne
  unfold statsOfDiffs
  rw [if_neg (by rw [sortDiffs_length]; omega)]
  rw [if_neg (by rw [sortDiffs_length]; omega)]
  rw [sortDiffs_length]

theorem getQueriesStats_eq (queryList : List Query) :
    getQueriesStats queryList = statsOfDiffs (queryList.map elapsed) := rfl

theorem wrap64_eq_self {x : Int} (h1 : -(2 ^ 63) ≤ x) (h2 : x < 2 ^ 63) :
    wrap64 x = x := by
  unfold wrap64
  omega

/-- C1 counterexample: at four queries whose elapsed times are all 2^62, the
two middle sorted elements sum to 2^63, the int64 addition at src/main.go
line 211 wraps to -2^63, and the reported median is -2^62, which is not the
arithmetic mean 2^62 of the two middle elements claimed for every non-empty
list. -/
theorem getQueriesStats_median_wraps_c1 :
    getQueriesStats qBig4 =
      some { average := 2 ^ 62, errors := [], fastest := 2 ^ 62,
             median := -(2 ^ 62), processed := 0, slowest := 2 ^ 62, total := 0 }
    ∧ ¬((-(2 ^ 62) : ℚ) = ((2 ^ 62 + 2 ^ 62 : ℤ) : ℚ) / 2) := by
  constructor
  · norm_num [getQueriesStats, statsOfDiffs, elapsed, wrap64, maxInt64, qBig4,
      sortDiffs, avgOf, foldFastest, foldSlowest,
      List.insertionSort, List.orderedInsert, Stats.mk.injEq]
  · norm_num

/-- C1 amended: for every non-empty query list, the median reported by
getQueriesStats is the middle element (odd count) of any ascending
rearrangement of the per-query elapsed times End - Start, or, for an even
count, half the wrapping int64 sum of the two middle elements, mNumber being
count / 2; whenever that sum stays within int64 range this is exactly the
arithmetic mean of the two middle elements, as in the test instances
[1,2,3] and [1,2,3,4] settled by the witness. -/
theorem getQueriesStats_median_c1 (queryList : List Query) (d : List Int)
    (hne : queryList ≠ [])
    (hperm : List.Perm d (queryList.map elapsed))
    (hsort : d.Sorted (fun a b => a ≤ b)) :
    ∃ s, getQueriesStats queryList = some s ∧
      s.median = (if d.length % 2 = 1
        then ((d.getD (d.length / 2) 0 : ℤ) : ℚ)
        else ((wrap64 (d.getD (d.length / 2 - 1) 0 + d.getD (d.length / 2) 0) : ℤ) : ℚ) / 2)
      ∧ (-(2 ^ 63) ≤ d.getD (d.length / 2 - 1) 0 + d.getD (d.length / 2) 0 →
          d.getD (d.length / 2 - 1) 0 + d.getD (d.length / 2) 0 < 2 ^ 63 →
          s.median = (if d.length % 2 = 1
            then ((d.getD (d.length / 2) 0 : ℤ) : ℚ)
            else ((d.getD (d.length / 2 - 1) 0 + d.getD (d.length / 2) 0 : ℤ) : ℚ) / 2)) := by
  have hd : d = sortDiffs (queryList.map elapsed) :=
    List.eq_of_perm_of_sorted (hperm.trans (sortDiffs_perm _).symm) hsort (sortDiffs_sorted _)
  subst hd
  rw [getQueriesStats_eq, sortDiffs_length]
  by_cases hpar : (queryList.map elapsed).length % 2 = 1
  · refine ⟨_, statsOfDiffs_odd _ hpar, ?_, ?_⟩
    · rw [if_pos hpar]
    · intro h1 h2
      rw [if_pos hpar]
  · have hne' : queryList.map elapsed ≠ [] := by simpa using hne
    refine ⟨_, statsOfDiffs_even _ hne' (by omega), ?_, ?_⟩
    · rw [if_neg hpar]
    · intro h1 h2
      rw [if_neg hpar]
      dsimp only
      rw [wrap64_eq_self h1 h2]

/-- C1 witness: the elapsed-time lists [1,2,3] and [1,2,3,4] from the
repository test, with medians 2 and 5/2; the middle sums stay in int64
range, so the exact-mean clause applies to the even case. -/
theorem getQueriesStats_median_c1_witness :
    (∃ s, getQueriesStats exQueries3 = some s ∧ s.median = 2) ∧
    (∃ s, getQueriesStats exQueries4 = some s ∧ s.median = 5 / 2) := by
  constructor
  · obtain ⟨s, hs, hm, _⟩ :=
      getQueriesStats_median_c1 exQueries3 [1, 2, 3] (by decide) (by decide) (by decide)
    refine ⟨s, hs, ?_⟩
    rw [hm]
    norm_num
  · obtain ⟨s, hs, _, hexact⟩ :=
      getQueriesStats_median_c1 exQueries4 [1, 2, 3, 4] (by decide) (by decide) (by decide)
    refine ⟨s, hs, ?_⟩
    rw [hexact (by decide) (by decide)]
    norm_num

/-- C5 counterexample: at four queries whose elapsed times are all 2^62 the
wrapping int64 addition of the two middle elements (src/main.go line 211)
makes the reported median -2^62 while fastest is 2^62, so
fastest ≤ median fails for this non-empty all-success list. -/
theorem getQueriesStats_order_violated_c5 :
    getQueriesStats qBig4 =
      some { average := 2 ^ 62, errors := [], fastest := 2 ^ 62,
             median := -(2 ^ 62), processed := 0, slowest := 2 ^ 62, total := 0 }
    ∧ ¬(((2 ^ 62 : Int) : ℚ) ≤ (-(2 ^ 62) : ℚ)) := by
  constructor
  · norm_num [getQueriesStats, statsOfDiffs, elapsed, wrap64, maxInt64, qBig4,
      sortDiffs, avgOf, foldFastest, foldSlowest,
      List.insertionSort, List.orderedInsert, Stats.mk.injEq]
  · norm_num

/-- C5 amended: for every non-empty query list the statistics returned by
getQueriesStats satisfy fastest ≤ median ≤ slowest and
fastest ≤ average ≤ slowest (comparisons taken in ℚ since Median and
Average are float64 fields), provided that, when the count is even, the
int64 addition of the two middle sorted elapsed times does not wrap; the
hypothesis is vacuous for odd counts and holds for all realistic elapsed
times. -/
theorem getQueriesStats_order_c5 (queryList : List Query) (hne : queryList ≠ [])
    (hsum : (queryList.map elapsed).length % 2 = 0 →
      -(2 ^ 63) ≤ (sortDiffs (queryList.map elapsed)).getD
            ((queryList.map elapsed).length / 2 - 1) 0
          + (sortDiffs (queryList.map elapsed)).getD
            ((queryList.map elapsed).length / 2) 0
      ∧ (sortDiffs (queryList.map elapsed)).getD
            ((queryList.map elapsed).length / 2 - 1) 0
          + (sortDiffs (queryList.map elapsed)).getD
            ((queryList.map elapsed).length / 2) 0 < 2 ^ 63) :
    ∃ s, getQueriesStats queryList = some s ∧
      (s.fastest : ℚ) ≤ s.median ∧ s.median ≤ (s.slowest : ℚ) ∧
      (s.fastest : ℚ) ≤ s.average ∧ s.average ≤ (s.slowest : ℚ) := by
  have htsne : queryList.map elapsed ≠ [] := by simpa using hne
  have hlen0 : (queryList.map elapsed).length ≠ 0 := by
    simpa [List.length_eq_zero] using htsne
  have hF : ∀ x ∈ queryList.map elapsed, foldFastest (queryList.map elapsed) ≤ x :=
    fun x hx => foldFastest_le _ hx _
  have hS : ∀ x ∈ queryList.map elapsed, x ≤ foldSlowest (queryList.map elapsed) :=
    fun x hx => le_foldSlowest _ hx _
  have hlenpos : (0 : ℚ) < ((queryList.map elapsed).length : ℚ) := by
    exact_mod_cast Nat.pos_of_ne_zero hlen0
  have havg₁ : (foldFastest (queryList.map elapsed) : ℚ) ≤ avgOf (queryList.map elapsed) := by
    rw [avgOf, le_div_iff₀ hlenpos]
    exact_mod_cast mul_length_le_sum hF
  have havg₂ : avgOf (queryList.map elapsed) ≤ (foldSlowest (queryList.map elapsed) : ℚ) := by
    rw [avgOf, div_le_iff₀ hlenpos]
    exact_mod_cast sum_le_mul_length hS
  rw [getQueriesStats_eq]
  by_cases hpar : (queryList.map elapsed).length % 2 = 1
  · have hm : (queryList.map elapsed).length / 2 < (sortDiffs (queryList.map elapsed)).length := by
      rw [sortDiffs_length]; omega
    have hmem : (sortDiffs (queryList.map elapsed)).getD ((queryList.map elapsed).length / 2) 0
        ∈ queryList.map elapsed :=
      (sortDiffs_perm _).subset (getD_mem_of_lt hm 0)
    refine ⟨_, statsOfDiffs_odd _ hpar, ?_, ?_, havg₁, havg₂⟩
    · dsimp only
      exact_mod_cast hF _ hmem
    · dsimp only
      exact_mod_cast hS _ hmem
  · have hpar0 : (queryList.map elapsed).length % 2 = 0 := by omega
    have hm : (queryList.map elapsed).length / 2 < (sortDiffs (queryList.map elapsed)).length := by
      rw [sortDiffs_length]; omega
    have hm1 : (queryList.map elapsed).length / 2 - 1
        < (sortDiffs (queryList.map elapsed)).length := by
      rw [sortDiffs_length]; omega
    have hmem : (sortDiffs (queryList.map elapsed)).getD ((queryList.map elapsed).length / 2) 0
        ∈ queryList.map elapsed :=
      (sortDiffs_perm _).subset (getD_mem_of_lt hm 0)
    have hmem1 : (sortDiffs (queryList.map elapsed)).getD
        ((queryList.map elapsed).length / 2 - 1) 0 ∈ queryList.map elapsed :=
      (sortDiffs_perm _).subset (getD_mem_of_lt hm1 0)
    have h1 : ((foldFastest (queryList.map elapsed) : ℤ) : ℚ)
        ≤ (((sortDiffs (queryList.map elapsed)).getD
              ((queryList.map elapsed).length / 2 - 1) 0 : ℤ) : ℚ) := by
      exact_mod_cast hF _ hmem1
    have h2 : ((foldFastest (queryList.map elapsed) : ℤ) : ℚ)
        ≤ (((sortDiffs (queryList.map elapsed)).getD
              ((queryList.map elapsed).length / 2) 0 : ℤ) : ℚ) := by
      exact_mod_cast hF _ hmem
    have h3 : (((sortDiffs (queryList.map elapsed)).getD
              ((queryList.map elapsed).length / 2 - 1) 0 : ℤ) : ℚ)
        ≤ ((foldSlowest (queryList.map elapsed) : ℤ) : ℚ) := by
      exact_mod_cast hS _ hmem1
    have h4 : (((sortDiffs (queryList.map elapsed)).getD
              ((queryList.map elapsed).length / 2) 0 : ℤ) : ℚ)
        ≤ ((foldSlowest (queryList.map elapsed) : ℤ) : ℚ) := by
      exact_mod_cast hS _ hmem
    obtain ⟨hb1, hb2⟩ := hsum hpar0
    refine ⟨_, statsOfDiffs_even _ htsne hpar0, ?_, ?_, havg₁, havg₂⟩
    · show (foldFastest (queryList.map elapsed) : ℚ) ≤ _ / 2
      rw [wrap64_eq_self hb1 hb2]
      push_cast at h1 h2 ⊢
      linarith
    · show _ / 2 ≤ (foldSlowest (queryList.map elapsed) : ℚ)
      rw [wrap64_eq_self hb1 hb2]
      push_cast at h3 h4 ⊢
      linarith

/-- C5 witness: the concrete list with elapsed times [1,2,3,4]; the even
count makes the no-wrap hypothesis substantive (the middle sum is 5). -/
theorem getQueriesStats_order_c5_witness :
    ∃ s, getQueriesStats exQueries4 = some s ∧
      (s.fastest : ℚ) ≤ s.median ∧ s.median ≤ (s.slowest : ℚ) ∧
      (s.fastest : ℚ) ≤ s.average ∧ s.average ≤ (s.slowest : ℚ) :=
  getQueriesStats_order_c5 exQueries4 (by decide) (by decide)

/-- C10: the statistics depend only on the sequence of per-query differences
End - Start: two query lists with elementwise equal differences (whatever
their query texts, steps or absolute timestamps) yield identical results;
determinism on repeated calls holds because getQueriesStats is a function. -/
theorem getQueriesStats_diffs_only_c10 (l₁ l₂ : List Query)
    (h : l₁.map (fun q => q.«end» - q.start) = l₂.map (fun q => q.«end» - q.start)) :
    getQueriesStats l₁ = getQueriesStats l₂ := by
  rw [getQueriesStats_eq, getQueriesStats_eq]
  have h₁ : l₁.map elapsed = (l₁.map (fun q => q.«end» - q.start)).map wrap64 := by
    rw [List.map_map]; rfl
  have h₂ : l₂.map elapsed = (l₂.map (fun q => q.«end» - q.start)).map wrap64 := by
    rw [List.map_map]; rfl
  rw [h₁, h₂, h]

/-- C10 witness: two single-query lists with different query text, step and
absolute timestamps but the same difference End - Start. -/
theorem getQueriesStats_diffs_only_c10_witness :
    getQueriesStats [{ query := "a", start := 0, «end» := 2, step := 1 }]
      = getQueriesStats [{ query := "b", start := 100, «end» := 102, step := 7 }] :=
  getQueriesStats_diffs_only_c10 _ _ (by decide)

theorem countP_set (f : Phase → Bool) :
    ∀ (ps : List Phase) (i : Nat), i < ps.length → ∀ a : Phase,
      (ps.set i a).countP f + (if f (ps.getD i .done) then 1 else 0)
        = ps.countP f + (if f a then 1 else 0) := by
  intro ps
  induction ps with
  | nil => intro i hi; cases hi
  | cons p t ih =>
    intro i hi a
    cases i with
    | zero =>
      simp only [List.set_cons_zero, List.getD_cons_zero, List.countP_cons]
      omega
    | succ j =>
      have hj : j < t.length := by simpa using hi
      have h2 := ih j hj a
      simp only [List.set_cons_succ, List.getD_cons_succ, List.countP_cons]
      omega

theorem inflight_replicate (n : Nat) : inflight (List.replicate n .pending) = 0 := by
  induction n with
  | zero => rfl
  | succ m ih =>
    rw [List.replicate_succ]
    simp [inflight, List.countP_cons, Phase.isRunning]

theorem getD_lt_length {ps : List Phase} {i : Nat} {a : Phase}
    (h : ps.getD i .done = a) (hne : a ≠ .done) : i < ps.length := by
  by_contra hge
  push_neg at hge
  rw [List.getD_eq_default _ _ hge] at h
  exact hne h.symm

/-- C4: the dispatcher of benchmark never has more than cap Query Executor
calls in flight, for every capacity cap ≥ 1 of the buffered workers channel
and every batch size: a unit of work acquires a channel slot before the call
(DStep.acquire is guarded by inflight < cap) and releases it unconditionally
on completion (DStep.release), so in every reachable dispatcher state the
number of in-flight calls is at most cap. -/
theorem benchmark_concurrency_bound_c4 (cap : Nat) (ps : List Phase)
    (hcap : 1 ≤ cap) (h : DReach cap ps) : inflight ps ≤ cap := by
  induction h with
  | init n => rw [inflight_replicate]; omega
  | step _ hstep ih =>
    cases hstep with
    | acquire i s hpend hlt =>
      have hi := getD_lt_length hpend (by decide)
      have hcount := countP_set Phase.isRunning _ i hi Phase.running
      rw [hpend] at hcount
      simp [Phase.isRunning] at hcount
      simp only [inflight] at hlt ih ⊢
      omega
    | release i s hrun =>
      have hi := getD_lt_length hrun (by decide)
      have hcount := countP_set Phase.isRunning _ i hi Phase.done
      rw [hrun] at hcount
      simp [Phase.isRunning] at hcount
      simp only [inflight] at ih ⊢
      omega

/-- C4 witness: with capacity 1 and a batch of two units, the initial
dispatcher state has at most one call in flight. -/
theorem benchmark_concurrency_bound_c4_witness :
    inflight (List.replicate 2 .pending) ≤ 1 :=
  benchmark_concurrency_bound_c4 1 (List.replicate 2 .pending) (by decide) (DReach.init 2)

/-- C2: claimed behaviour is that a failed Query Executor call is recorded
in the error list and the batch still completes with a Statistics value.
In the code the worker appends the cause to errorList but then dereferences
the nil response (resp.StatusCode, src/main.go line 247), a runtime panic
that crashes the whole process: benchmark never returns on a batch that
contains any failing call. -/
theorem benchmark_failure_aborts_c2 :
    benchmark [({ query := "q", start := 0, «end» := 0, step := 1 },
                 .err "connection refused")] 0 = none
    ∧ (workerBody { query := "q", start := 0, «end» := 0, step := 1 }
        (.err "connection refused") { errorList := [], queryList := [], panicked := false }).panicked
        = true := by
  constructor
  · rfl
  · rfl

/-- C3: claimed behaviour is that a batch of zero descriptors yields a
Statistics value with processed = 0 and sentinel latency fields, the
aggregator returning normally.  In the code getQueriesStats on an empty
query list takes the even-median branch and indexes timeDiffs[-1]
(src/main.go line 211), an index-out-of-range runtime panic, so neither
getQueriesStats nor benchmark returns a value on the empty batch. -/
theorem empty_batch_panics_c3 :
    getQueriesStats [] = none ∧ benchmark [] 0 = none := by
  constructor
  · rfl
  · rfl

/-- C6 counterexample: parseFlags accepts a workers value of 0 (and any
non-positive value); the claimed startup rejection of non-positive
concurrency does not exist in the code. -/
theorem parseFlags_accepts_zero_workers_c6 :
    parseFlags "promql_queries.csv" 0 "http://localhost:9201" =
      .ok { filepath := "promql_queries.csv", workers := 0,
            url := "http://localhost:9201" } := by rfl

/-- C6 amended: the only startup configuration check is that the filepath is
non-empty; any workers value, including zero and negative ones, passes
parseFlags unchanged and reaches the dispatcher unchecked. -/
theorem parseFlags_only_checks_filepath_c6 (filepath url : String) (workers : Int) :
    parseFlags "" workers url = .error "required input file" ∧
    (filepath ≠ "" → parseFlags filepath workers url =
      .ok { filepath := filepath, workers := workers, url := url }) := by
  constructor
  · rfl
  · intro h
    simp [parseFlags, h]

/-- C6 amended witness: a non-empty filepath with workers = -3 is accepted. -/
theorem parseFlags_only_checks_filepath_c6_witness :
    parseFlags "promql_queries.csv" (-3) "u" =
      .ok { filepath := "promql_queries.csv", workers := -3, url := "u" } :=
  (parseFlags_only_checks_filepath_c6 "promql_queries.csv" "u" (-3)).2 (by decide)

/-- C7: claimed behaviour is that a malformed numeric field makes ingestion
fail fatally before any query executes.  readFile does return the error, but
main only logs it (src/main.go line 332) and still invokes benchmark, with
the nil query list returned alongside the error: the dispatcher runs on an
empty substitute list. -/
theorem malformed_record_still_dispatches_c7 :
    (readFile [{ f0 := "q", f1 := "x", f2 := "2", f3 := "3" }]
      = .error "invalid integer x")
    ∧ mainQueryList [{ f0 := "q", f1 := "x", f2 := "2", f3 := "3" }] = [] := by
  constructor
  · rfl
  · rfl

/-- C8 counterexample: for the host string http://host.xyz the code sets the
URL host to ost.xyz, not to host.xyz as the claim (prefix removal) requires:
strings.TrimLeft treats the matched prefix as a character cutset and also
removes the leading h of the remainder. -/
theorem newHTTPClient_cutset_c8 :
    getScheme "http://host.xyz" = some "http://"
    ∧ (newHTTPClient "http://host.xyz").url.host = "ost.xyz"
    ∧ (newHTTPClient "http://host.xyz").url.host ≠ "host.xyz" := by decide

theorem dropWhile_append_all {α : Type} (pred : α → Bool) (xs ys : List α)
    (h : ∀ x ∈ xs, pred x = true) :
    (xs ++ ys).dropWhile pred = ys.dropWhile pred := by
  induction xs with
  | nil => rfl
  | cons a t ih =>
    have ha : pred a = true := h a (List.mem_cons_self a t)
    simp only [List.cons_append, List.dropWhile_cons, ha, if_true]
    exact ih fun x hx => h x (List.mem_cons_of_mem a hx)

/-- C8 amended: the scheme is https when no recognized prefix is present and
otherwise the prefix name; the URL host is the configured string with every
leading character drawn from the prefix cutset removed (strings.TrimLeft
semantics), which coincides with removing exactly the prefix precisely when
the remainder is empty or starts with a character outside the cutset. -/
theorem newHTTPClient_scheme_host_c8 (host : String) :
    (getScheme host = none →
      (newHTTPClient host).url.scheme = "https" ∧ (newHTTPClient host).url.host = host)
    ∧ (∀ p, getScheme host = some p →
        (newHTTPClient host).url.scheme = trimRightCutset p "://"
        ∧ (newHTTPClient host).url.host = trimLeftCutset host p
        ∧ (∀ rest : List Char, host.data = p.data ++ rest →
            (∀ c, rest.head? = some c → c ∉ p.data) →
            (newHTTPClient host).url.host = ⟨rest⟩)) := by
  constructor
  · intro h
    simp [newHTTPClient, h]
  · intro p hp
    refine ⟨by simp [newHTTPClient, hp], by simp [newHTTPClient, hp], ?_⟩
    intro rest hsplit hhead
    have hdrop : (host.data).dropWhile (fun c => decide (c ∈ p.data)) = rest := by
      rw [hsplit]
      have h₁ : ∀ x ∈ p.data, (fun c => decide (c ∈ p.data)) x = true := by
        intro x hx; simpa using hx
      rw [dropWhile_append_all _ _ _ h₁]
      cases rest with
      | nil => rfl
      | cons c cs =>
        have : c ∉ p.data := hhead c rfl
        simp [List.dropWhile, this]
    simp [newHTTPClient, hp, trimLeftCutset, hdrop]

/-- C8 amended witness: for https://example.xyz the remainder example.xyz
starts with a character outside the cutset, so the host is the exact
remainder and the scheme is https. -/
theorem newHTTPClient_scheme_host_c8_witness :
    (newHTTPClient "https://example.xyz").url.host = "example.xyz" := by
  have h := (newHTTPClient_scheme_host_c8 "https://example.xyz").2 "https://" (by decide)
  exact h.2.2 "example.xyz".data (by decide) (by decide)

/-- C9 counterexample: the claim that getHTTPQuery leaves every field of the
shared Client unchanged is false: the URL after the call differs from the
URL before it (Path is overwritten), already for a trivial time formatter
and escaper. -/
theorem getHTTPQuery_mutates_c9 :
    getHTTPQueryURL (fun _ => "") (fun s => s)
      { url := { scheme := "https", host := "promscale.xyz", path := "", rawQuery := "" },
        version := "v1" }
      { query := "some query", start := 100000, «end» := 999999, step := 50 }
      ≠ { scheme := "https", host := "promscale.xyz", path := "", rawQuery := "" } := by decide

/-- C9 amended: each invocation of getHTTPQuery issues exactly one outbound
request, but it mutates the shared Client URL: Path becomes
/api/version/query_range and RawQuery the encoded parameters, while Scheme
and Host are left unchanged — for every time formatter and escaper. -/
theorem getHTTPQuery_frame_c9 (fmtTime : Int → String) (escape : String → String)
    (c : ClientModel) (q : Query) :
    (getHTTPQueryURL fmtTime escape c q).scheme = c.url.scheme
    ∧ (getHTTPQueryURL fmtTime escape c q).host = c.url.host
    ∧ (getHTTPQueryURL fmtTime escape c q).path = "/api/" ++ c.version ++ "/query_range"
    ∧ (getHTTPQueryRequests fmtTime escape c q).length = 1 :=
  ⟨rfl, rfl, rfl, rfl⟩

end PromBench
